import Mathlib

/-!
Verification development for the Chatbot Flow Builder repository.

This file is a shallow embedding of the functional core of the repository:

* `validateFlow`            — src/utils/validation.ts
* `isValidConnection`       — src/components/FlowBuilder.tsx
* `exportFlowAsJSON`        — src/utils/exportFlow.ts
* `exportFlowAsImage`       — src/utils/exportImage.ts
* `generateNodeId` / `Step` — src/components/FlowBuilder.tsx (id generation and
                              the user-driven graph mutations)

JavaScript arrays become Lean lists, JS objects become structures, JS
`string | null | undefined` fields become `Option String`, and JS numbers that
are only carried around (never computed with) become `Int`.  `JSON.stringify`
with indent 2 is embedded by `renderJson`, including its behaviour of dropping
object properties whose value is `undefined` (`jsObj`).  `JSON.parse`
composed with `JSON.stringify` is the identity on the document value, so the
round-trip claims are settled on the `Json` document value produced by the
serializer together with an explicit field reader (`readFlow`).
-/

namespace FlowBuilder

/-- 2D coordinate in canvas space (React Flow `XYPosition`). -/
structure Pos where
  x : Int
  y : Int
deriving DecidableEq, Repr

/-- Data payload stored inside every TextNode (src/types/nodeTypes.ts). -/
structure TextNodeData where
  text : String
deriving DecidableEq, Repr

/-- A React Flow node specialised with `TextNodeData`.  `selected` and
`dragging` are runtime-only fields injected by React Flow; they model the
"transient UI state" that the export serializer must strip. -/
structure FlowNode where
  id : String
  type : Option String := none
  position : Pos
  data : TextNodeData
  selected : Option Bool := none
  dragging : Option Bool := none
deriving DecidableEq, Repr

/-- A React Flow edge.  `animated` and `style` are runtime/visual fields; we
keep `animated` as their representative. -/
structure FlowEdge where
  id : String
  source : String
  target : String
  sourceHandle : Option String := none
  targetHandle : Option String := none
  animated : Option Bool := none
deriving DecidableEq, Repr

/-- React Flow `Connection`: the proposed edge handed to `isValidConnection`.
All four fields are `string | null` in the library, hence `Option String`. -/
structure Connection where
  source : Option String
  sourceHandle : Option String
  target : Option String
  targetHandle : Option String
deriving DecidableEq, Repr

/-- Result record returned by `validateFlow` (src/utils/validation.ts). -/
structure ValidationResult where
  valid : Bool
  message : String
deriving DecidableEq, Repr

/-- `validateFlow` from src/utils/validation.ts.

The TypeScript builds `new Set(edges.map(e => e.target))` and filters the
nodes whose id is not in the set; the set is embedded as the list of targets
with `List.contains` for membership. -/
def validateFlow (nodes : List FlowNode) (edges : List FlowEdge) :
    ValidationResult :=
  if nodes.length ≤ 1 then
    { valid := true, message := "Flow saved successfully!" }
  else
    let nodesWithIncoming := edges.map FlowEdge.target
    let nodesWithoutIncoming :=
      nodes.filter (fun node => !(nodesWithIncoming.contains node.id))
    if nodesWithoutIncoming.length > 1 then
      { valid := false
        message := "Cannot save flow: More than one node has empty target handles." }
    else
      { valid := true, message := "Flow saved successfully!" }

/-- `isValidConnection` from src/components/FlowBuilder.tsx: rejects
self-loops, then rejects a proposal when some existing edge already leaves the
same `(source, sourceHandle)` pair. -/
def isValidConnection (connection : Connection) (edges : List FlowEdge) :
    Bool :=
  if connection.source == connection.target then false
  else
    let sourceAlreadyConnected := edges.any (fun e =>
      (some e.source == connection.source) &&
      (e.sourceHandle == connection.sourceHandle))
    !sourceAlreadyConnected

/-- The number of root nodes, written from the spec's words: nodes whose id
does not appear as the target of any edge. -/
def rootCount (nodes : List FlowNode) (edges : List FlowEdge) : Nat :=
  (nodes.filter (fun node => edges.all (fun e => !(e.target == node.id)))).length

set_option maxRecDepth 4000

theorem contains_targets_eq (edges : List FlowEdge) (i : String) :
    ((edges.map FlowEdge.target).contains i)
      = edges.any (fun e => e.target == i) := by
  induction edges with
  | nil => rfl
  | cons e es ih =>
    simp only [List.map_cons, List.contains_cons, List.any_cons, ih]
    rw [Bool.beq_comm]

theorem filter_roots_eq (nodes : List FlowNode) (edges : List FlowEdge) :
    nodes.filter (fun node => !((edges.map FlowEdge.target).contains node.id))
      = nodes.filter (fun node => edges.all (fun e => !(e.target == node.id))) := by
  apply List.filter_congr
  intro n _
  rw [contains_targets_eq, List.not_any_eq_all_not]

theorem validateFlow_eq_if (nodes : List FlowNode) (edges : List FlowEdge)
    (hlen : ¬ nodes.length ≤ 1) :
    validateFlow nodes edges =
      (if 1 < rootCount nodes edges then
        { valid := false
          message := "Cannot save flow: More than one node has empty target handles." }
      else { valid := true, message := "Flow saved successfully!" }) := by
  unfold validateFlow
  rw [if_neg hlen]
  simp only [filter_roots_eq]
  rfl

-- Sample concrete graphs used by the witnesses below.

def nodeA : FlowNode :=
  { id := "a", type := some "textNode", position := ⟨0, 0⟩, data := ⟨"A"⟩ }

def nodeB : FlowNode :=
  { id := "b", type := some "textNode", position := ⟨100, 0⟩, data := ⟨"B"⟩ }

def nodeC : FlowNode :=
  { id := "c", type := some "textNode", position := ⟨200, 0⟩, data := ⟨"C"⟩ }

def edgeAB : FlowEdge :=
  { id := "e1", source := "a", target := "b"
    sourceHandle := some "source", targetHandle := some "target" }

/-- C1: For every graph with at least 2 nodes, `validateFlow` returns
`valid = false` iff the number of nodes whose id does not appear as the
target of any edge is strictly greater than 1; in the false case the
message is exactly "Cannot save flow: More than one node has empty target
handles." and in the true case exactly "Flow saved successfully!". -/
theorem validateFlow_root_rule (nodes : List FlowNode) (edges : List FlowEdge)
    (h : 2 ≤ nodes.length) :
    ((validateFlow nodes edges).valid = false ↔ 1 < rootCount nodes edges) ∧
    ((validateFlow nodes edges).valid = false →
      (validateFlow nodes edges).message =
        "Cannot save flow: More than one node has empty target handles.") ∧
    ((validateFlow nodes edges).valid = true →
      (validateFlow nodes edges).message = "Flow saved successfully!") := by
  have hlen : ¬ nodes.length ≤ 1 := by omega
  have key := validateFlow_eq_if nodes edges hlen
  refine ⟨?_, ?_, ?_⟩ <;>
    (rw [key]; by_cases hr : 1 < rootCount nodes edges <;> simp [hr])

theorem validateFlow_root_rule_witness :
    (validateFlow [nodeA, nodeB, nodeC] [edgeAB]).valid = false ∧
    1 < rootCount [nodeA, nodeB, nodeC] [edgeAB] := by
  have h := validateFlow_root_rule [nodeA, nodeB, nodeC] [edgeAB] (by decide)
  have hr : 1 < rootCount [nodeA, nodeB, nodeC] [edgeAB] := by decide
  exact ⟨h.1.mpr hr, hr⟩

/-- C2: For every graph with 0 or 1 nodes, `validateFlow` returns
`{valid := true, message := "Flow saved successfully!"}` unconditionally,
regardless of the content of the edge list. -/
theorem validateFlow_small (nodes : List FlowNode) (edges : List FlowEdge)
    (h : nodes.length ≤ 1) :
    validateFlow nodes edges =
      { valid := true, message := "Flow saved successfully!" } := by
  unfold validateFlow
  rw [if_pos h]

theorem validateFlow_small_witness :
    validateFlow [] [edgeAB] =
      { valid := true, message := "Flow saved successfully!" } :=
  validateFlow_small [] [edgeAB] (by decide)

theorem bnot_eq_false_iff (b : Bool) : ((!b) = false) ↔ b = true := by
  cases b <;> simp

/-- A proposed self-loop connection, with no matching existing edge. -/
def selfLoop : Connection :=
  { source := some "node_1", sourceHandle := some "source"
    target := some "node_1", targetHandle := some "target" }

/-- C3 (counterexample): the claim "`isValidConnection` rejects a proposal
iff its `(source, sourceHandle)` pair matches an existing edge" is false as
stated: a self-loop is rejected even though the edge list is empty, so no
existing edge matches its pair. -/
theorem isValidConnection_claim_cex :
    isValidConnection selfLoop [] = false ∧
    ¬ ∃ e ∈ ([] : List FlowEdge),
        some e.source = selfLoop.source ∧
        e.sourceHandle = selfLoop.sourceHandle := by
  exact ⟨rfl, by simp⟩

/-- C3 (amended): for proposals that are not self-loops, `isValidConnection`
rejects exactly when some existing edge has the same
`(source, sourceHandle)` pair, and the verdict is invariant under any
permutation of the existing edge list. -/
theorem isValidConnection_pair_rule (c : Connection)
    (edges edges' : List FlowEdge) (hperm : edges.Perm edges') :
    (c.source ≠ c.target →
      (isValidConnection c edges = false ↔
        ∃ e ∈ edges,
          some e.source = c.source ∧ e.sourceHandle = c.sourceHandle)) ∧
    isValidConnection c edges = isValidConnection c edges' := by
  constructor
  · intro hne
    have hbe : (c.source == c.target) = false := by
      cases hx : c.source == c.target
      · rfl
      · exact absurd (eq_of_beq hx) hne
    simp only [isValidConnection, hbe, Bool.false_eq_true, if_false]
    rw [bnot_eq_false_iff, List.any_eq_true]
    constructor
    · rintro ⟨e, he, hf⟩
      rw [Bool.and_eq_true] at hf
      exact ⟨e, he, eq_of_beq hf.1, eq_of_beq hf.2⟩
    · rintro ⟨e, he, h1, h2⟩
      refine ⟨e, he, ?_⟩
      rw [Bool.and_eq_true]
      constructor
      · rw [h1]; exact beq_self_eq_true c.source
      · rw [h2]; exact beq_self_eq_true c.sourceHandle
  · unfold isValidConnection
    by_cases hb : (c.source == c.target) = true
    · simp [hb]
    · simp only [Bool.not_eq_true] at hb
      simp only [hb, Bool.false_eq_true, if_false]
      have hany : (edges.any (fun e =>
          (some e.source == c.source) && (e.sourceHandle == c.sourceHandle)))
          = (edges'.any (fun e =>
          (some e.source == c.source) && (e.sourceHandle == c.sourceHandle))) :=
        Bool.coe_iff_coe.mp (by simp [List.any_eq_true, hperm.mem_iff])
      rw [hany]

theorem isValidConnection_pair_rule_witness :
    (isValidConnection
        { source := some "a", sourceHandle := some "source"
          target := some "b", targetHandle := some "target" }
        [edgeAB] = false) ∧
    isValidConnection
        { source := some "a", sourceHandle := some "source"
          target := some "b", targetHandle := some "target" }
        [edgeAB]
      = isValidConnection
        { source := some "a", sourceHandle := some "source"
          target := some "b", targetHandle := some "target" }
        [edgeAB] := by
  have h := isValidConnection_pair_rule
    { source := some "a", sourceHandle := some "source"
      target := some "b", targetHandle := some "target" }
    [edgeAB] [edgeAB] (List.Perm.refl _)
  refine ⟨(h.1 (by decide)).mpr ?_, h.2⟩
  exact ⟨edgeAB, by decide, by decide, by decide⟩

/-- C4: every proposed connection whose source equals its target is rejected
by `isValidConnection`, for all existing edge lists. -/
theorem isValidConnection_no_self_loop (c : Connection)
    (edges : List FlowEdge) (h : c.source = c.target) :
    isValidConnection c edges = false := by
  unfold isValidConnection
  rw [if_pos (by rw [h]; exact beq_self_eq_true c.target)]

theorem isValidConnection_no_self_loop_witness :
    isValidConnection selfLoop [edgeAB] = false :=
  isValidConnection_no_self_loop selfLoop [edgeAB] (by decide)

/-! ### Export serializer (src/utils/exportFlow.ts) -/

/-- JSON document values (the arguments/results of the host `JSON.stringify`
and `JSON.parse`).  Only the constructors the export uses are needed. -/
inductive Json where
  | str (s : String)
  | num (n : Int)
  | arr (items : List Json)
  | obj (fields : List (String × Json))

/-- JS `String.prototype.padStart(len, c)`. -/
def padStart (s : String) (len : Nat) (c : Char) : String :=
  if len ≤ s.length then s
  else String.mk (List.replicate (len - s.length) c) ++ s

def hexString (n : Nat) : String :=
  (Nat.toDigits 16 n).asString

/-- JSON string escaping as performed by `JSON.stringify`. -/
def escapeJsonChar (c : Char) : String :=
  if c = '"' then "\\\""
  else if c = '\\' then "\\\\"
  else if c = '\x08' then "\\b"
  else if c = '\x0c' then "\\f"
  else if c = '\n' then "\\n"
  else if c = '\r' then "\\r"
  else if c = '\t' then "\\t"
  else if c.toNat < 32 then "\\u" ++ padStart (hexString c.toNat) 4 '0'
  else String.singleton c

def quoteJsonString (s : String) : String :=
  "\"" ++ String.join (s.data.map escapeJsonChar) ++ "\""

mutual

/-- `JSON.stringify(v, null, gap)` with indentation string `gap`, current
indentation `ind`.  The export calls it with `gap = "  "` (2 spaces).
`renderItems`/`renderMembers` produce the already-indented member lines of
an array/object one level deeper (at indentation `ind ++ gap`). -/
def renderJson (gap ind : String) : Json → String
  | .str s => quoteJsonString s
  | .num n => toString n
  | .arr items =>
    if items.isEmpty then "[]"
    else
      "[\n" ++ String.intercalate ",\n" (renderItems gap (ind ++ gap) items)
        ++ "\n" ++ ind ++ "]"
  | .obj fields =>
    if fields.isEmpty then "\x7b\x7d"
    else
      "\x7b\n" ++ String.intercalate ",\n" (renderMembers gap (ind ++ gap) fields)
        ++ "\n" ++ ind ++ "\x7d"

def renderItems (gap ind : String) : List Json → List String
  | [] => []
  | j :: js => (ind ++ renderJson gap ind j) :: renderItems gap ind js

def renderMembers (gap ind : String) : List (String × Json) → List String
  | [] => []
  | (k, v) :: fs =>
    (ind ++ quoteJsonString k ++ ": " ++ renderJson gap ind v)
      :: renderMembers gap ind fs

end

/-- A JS object literal some of whose properties may be `undefined`
(`none`): `JSON.stringify` omits those properties from the output. -/
def jsObj (props : List (String × Option Json)) : Json :=
  .obj (props.filterMap (fun p => p.2.map (fun v => (p.1, v))))

/-- Shape of a single node in the exported JSON (`ExportedNode` in
src/utils/exportFlow.ts). -/
structure ExportedNode where
  id : String
  type : Option String
  position : Pos
  data : TextNodeData
deriving DecidableEq, Repr

/-- Shape of a single edge in the exported JSON (`ExportedEdge`). -/
structure ExportedEdge where
  id : String
  source : String
  target : String
deriving DecidableEq, Repr

/-- The per-node projection performed by `exportFlowAsJSON`. -/
def cleanNode (node : FlowNode) : ExportedNode :=
  { id := node.id
    type := node.type
    position := ⟨node.position.x, node.position.y⟩
    data := ⟨node.data.text⟩ }

/-- The per-edge projection performed by `exportFlowAsJSON`. -/
def cleanEdge (edge : FlowEdge) : ExportedEdge :=
  { id := edge.id, source := edge.source, target := edge.target }

def exportedNodeJson (n : ExportedNode) : Json :=
  jsObj [("id", some (.str n.id)),
         ("type", n.type.map .str),
         ("position",
           some (.obj [("x", .num n.position.x), ("y", .num n.position.y)])),
         ("data", some (.obj [("text", .str n.data.text)]))]

def exportedEdgeJson (e : ExportedEdge) : Json :=
  jsObj [("id", some (.str e.id)),
         ("source", some (.str e.source)),
         ("target", some (.str e.target))]

/-- The document value `{ nodes: cleanNodes, edges: cleanEdges }` that
`exportFlowAsJSON` passes to `JSON.stringify`. -/
def flowJson (nodes : List FlowNode) (edges : List FlowEdge) : Json :=
  .obj [("nodes", .arr ((nodes.map cleanNode).map exportedNodeJson)),
        ("edges", .arr ((edges.map cleanEdge).map exportedEdgeJson))]

/-- The current calendar date as seen through the JS `Date` accessors:
`getMonth()` is 0-based, `getDate()` is 1-based. -/
structure Date where
  year : Nat
  monthIndex : Nat
  day : Nat
deriving DecidableEq, Repr

/-- `getTodayString` from src/utils/exportFlow.ts. -/
def getTodayString (d : Date) : String :=
  let yyyy := toString d.year
  let mm := padStart (toString (d.monthIndex + 1)) 2 '0'
  let dd := padStart (toString d.day) 2 '0'
  yyyy ++ "-" ++ mm ++ "-" ++ dd

/-- The arguments `exportFlowAsJSON` hands to `triggerDownload`. -/
structure Download where
  content : String
  filename : String
  mimeType : String
deriving DecidableEq, Repr

/-- `exportFlowAsJSON` from src/utils/exportFlow.ts, with the current date
passed explicitly in place of `new Date()`. -/
def exportFlowAsJSON (today : Date) (nodes : List FlowNode)
    (edges : List FlowEdge) : Download :=
  { content := renderJson "  " "" (flowJson nodes edges)
    filename := "chatbot-flow-" ++ getTodayString today ++ ".json"
    mimeType := "application/json" }

/-! ### Reading the exported document back -/

def objKeys : Json → List String
  | .obj fields => fields.map Prod.fst
  | _ => []

def jsonLookup (fields : List (String × Json)) (key : String) : Option Json :=
  (fields.find? (fun f => f.1 == key)).map Prod.snd

def asStr : Json → Option String
  | .str s => some s
  | _ => none

def asNum : Json → Option Int
  | .num n => some n
  | _ => none

def asArr : Json → Option (List Json)
  | .arr items => some items
  | _ => none

def asObj : Json → Option (List (String × Json))
  | .obj fields => some fields
  | _ => none

def readNode (j : Json) : Option ExportedNode := do
  let fs ← asObj j
  let i ← (jsonLookup fs "id").bind asStr
  let ty := (jsonLookup fs "type").bind asStr
  let pos ← (jsonLookup fs "position").bind asObj
  let x ← (jsonLookup pos "x").bind asNum
  let y ← (jsonLookup pos "y").bind asNum
  let dat ← (jsonLookup fs "data").bind asObj
  let t ← (jsonLookup dat "text").bind asStr
  pure { id := i, type := ty, position := ⟨x, y⟩, data := ⟨t⟩ }

def readEdge (j : Json) : Option ExportedEdge := do
  let fs ← asObj j
  let i ← (jsonLookup fs "id").bind asStr
  let s ← (jsonLookup fs "source").bind asStr
  let t ← (jsonLookup fs "target").bind asStr
  pure { id := i, source := s, target := t }

def readList (f : Json → Option α) : List Json → Option (List α)
  | [] => some []
  | j :: js => do
    let a ← f j
    let rest ← readList f js
    pure (a :: rest)

def readFlow (j : Json) : Option (List ExportedNode × List ExportedEdge) := do
  let fs ← asObj j
  let ns ← (jsonLookup fs "nodes").bind asArr
  let es ← (jsonLookup fs "edges").bind asArr
  let rns ← readList readNode ns
  let res ← readList readEdge es
  pure (rns, res)

theorem readNode_exportedNodeJson (n : ExportedNode) :
    readNode (exportedNodeJson n) = some n := by
  obtain ⟨i, ty, ⟨x, y⟩, ⟨t⟩⟩ := n
  cases ty <;> rfl

theorem readEdge_exportedEdgeJson (e : ExportedEdge) :
    readEdge (exportedEdgeJson e) = some e := by
  obtain ⟨i, s, t⟩ := e
  rfl

theorem readList_map {α : Type} (f : Json → Option α) (g : α → Json)
    (hfg : ∀ a, f (g a) = some a) (l : List α) :
    readList f (l.map g) = some l := by
  induction l with
  | nil => rfl
  | cons a l ih => simp [readList, hfg, ih]

theorem readFlow_obj (A B : List Json) :
    readFlow (.obj [("nodes", .arr A), ("edges", .arr B)])
      = (readList readNode A).bind (fun rns =>
          (readList readEdge B).bind (fun res => some (rns, res))) := rfl

theorem readFlow_flowJson (nodes : List FlowNode) (edges : List FlowEdge) :
    readFlow (flowJson nodes edges)
      = some (nodes.map cleanNode, edges.map cleanEdge) := by
  rw [flowJson, readFlow_obj,
    readList_map readNode exportedNodeJson readNode_exportedNodeJson,
    readList_map readEdge exportedEdgeJson readEdge_exportedEdgeJson]
  rfl

theorem objKeys_exportedNodeJson (n : ExportedNode) :
    objKeys (exportedNodeJson n)
      = (match n.type with
         | none => ["id", "position", "data"]
         | some _ => ["id", "type", "position", "data"]) := by
  obtain ⟨i, ty, pos, dat⟩ := n
  cases ty <;> rfl

theorem objKeys_exportedEdgeJson (e : ExportedEdge) :
    objKeys (exportedEdgeJson e) = ["id", "source", "target"] := rfl

/-- C5: serializing a graph through `exportFlowAsJSON` and reading the
produced document back yields the same node ids, positions, and payload
text and the same edge (id, source, target) triples, and the exported
objects carry no runtime-only fields: every node object's keys are among
id, type, position, data, and every edge object has exactly the keys
id, source, target.  (`JSON.parse ∘ JSON.stringify` is the identity on the
document value, so the round trip is settled on the document value
`flowJson` that `exportFlowAsJSON` serializes.) -/
theorem exportFlow_roundTrip (today : Date) (nodes : List FlowNode)
    (edges : List FlowEdge) :
    (exportFlowAsJSON today nodes edges).content
        = renderJson "  " "" (flowJson nodes edges) ∧
    readFlow (flowJson nodes edges)
        = some (nodes.map cleanNode, edges.map cleanEdge) ∧
    (nodes.map cleanNode).map ExportedNode.id = nodes.map FlowNode.id ∧
    (nodes.map cleanNode).map ExportedNode.position
        = nodes.map FlowNode.position ∧
    (nodes.map cleanNode).map (fun n => n.data.text)
        = nodes.map (fun n => n.data.text) ∧
    (edges.map cleanEdge).map (fun e => (e.id, e.source, e.target))
        = edges.map (fun e => (e.id, e.source, e.target)) ∧
    ((nodes.map cleanNode).map (fun n => objKeys (exportedNodeJson n))).all
        (fun ks => ks.all
          (fun k => ["id", "type", "position", "data"].contains k)) = true ∧
    (edges.map cleanEdge).map (fun e => objKeys (exportedEdgeJson e))
        = edges.map (fun _ => ["id", "source", "target"]) := by
  refine ⟨rfl, readFlow_flowJson nodes edges, ?_, ?_, ?_, ?_, ?_, ?_⟩
  · rw [List.map_map]; rfl
  · rw [List.map_map]; rfl
  · rw [List.map_map]; rfl
  · rw [List.map_map]; rfl
  · rw [List.all_eq_true]
    intro ks hks
    rw [List.map_map] at hks
    rcases List.mem_map.mp hks with ⟨n, _, rfl⟩
    simp only [Function.comp_apply, objKeys_exportedNodeJson]
    rw [show (cleanNode n).type = n.type from rfl]
    cases n.type <;> rfl
  · rw [List.map_map]; rfl

/-- C10: a node whose type field is undefined is exported without a "type"
key at all (JSON.stringify drops undefined-valued properties), while a node
with a defined type is exported as an object with exactly the keys
id, type, position, data. -/
theorem exportedNode_type_key (nodes : List FlowNode) :
    ((nodes.map cleanNode).map exportedNodeJson).map objKeys
        = nodes.map (fun node =>
            match node.type with
            | none => ["id", "position", "data"]
            | some _ => ["id", "type", "position", "data"]) ∧
    ((nodes.map cleanNode).map exportedNodeJson).map
        (fun j => (objKeys j).contains "type")
      = nodes.map (fun node => node.type.isSome) := by
  constructor
  · rw [List.map_map, List.map_map]
    induction nodes with
    | nil => rfl
    | cons n ns ih =>
      simp only [List.map_cons, ih, Function.comp_apply]
      rw [objKeys_exportedNodeJson]
      rfl
  · rw [List.map_map, List.map_map]
    induction nodes with
    | nil => rfl
    | cons n ns ih =>
      simp only [List.map_cons, ih, Function.comp_apply]
      rw [objKeys_exportedNodeJson,
        show (cleanNode n).type = n.type from rfl]
      cases n.type <;> rfl

theorem padStart_toString_two (n : Nat) (h1 : 1 ≤ n) (h2 : n ≤ 31) :
    padStart (toString n) 2 '0'
      = if n < 10 then "0" ++ toString n else toString n := by
  interval_cases n <;> rfl

/-- C7: the structured export is serialized with 2-space indentation and the
§6 field order (nodes before edges; id, type, position, data for a node;
id, source, target for an edge), and is saved as
chatbot-flow-YYYY-MM-DD.json with zero-padded month and day.  The final
conjunct exhibits the complete rendered document for a concrete one-node,
one-edge flow. -/
theorem exportFlowAsJSON_format (today : Date) (nodes : List FlowNode)
    (edges : List FlowEdge) (hm : today.monthIndex + 1 ≤ 12)
    (hd1 : 1 ≤ today.day) (hd2 : today.day ≤ 31) :
    (exportFlowAsJSON today nodes edges).filename
        = "chatbot-flow-" ++ getTodayString today ++ ".json" ∧
    getTodayString today
        = toString today.year ++ "-"
            ++ (if today.monthIndex + 1 < 10
                then "0" ++ toString (today.monthIndex + 1)
                else toString (today.monthIndex + 1))
            ++ "-"
            ++ (if today.day < 10
                then "0" ++ toString today.day
                else toString today.day) ∧
    (exportFlowAsJSON today nodes edges).content
        = renderJson "  " "" (flowJson nodes edges) ∧
    objKeys (flowJson nodes edges) = ["nodes", "edges"] ∧
    (∀ n ∈ nodes,
      (objKeys (exportedNodeJson (cleanNode n))).Sublist
        ["id", "type", "position", "data"]) ∧
    (∀ e ∈ edges,
      objKeys (exportedEdgeJson (cleanEdge e)) = ["id", "source", "target"]) ∧
    (exportFlowAsJSON ⟨2025, 0, 5⟩
        [{ id := "node_0", type := some "textNode",
           position := ⟨180, 180⟩, data := ⟨"Hi"⟩ }]
        [{ id := "e1", source := "node_0", target := "node_1" }]).content
      = "\x7b\n  \"nodes\": [\n    \x7b\n      \"id\": \"node_0\",\n      \"type\": \"textNode\",\n      \"position\": \x7b\n        \"x\": 180,\n        \"y\": 180\n      \x7d,\n      \"data\": \x7b\n        \"text\": \"Hi\"\n      \x7d\n    \x7d\n  ],\n  \"edges\": [\n    \x7b\n      \"id\": \"e1\",\n      \"source\": \"node_0\",\n      \"target\": \"node_1\"\n    \x7d\n  ]\n\x7d" := by
  refine ⟨rfl, ?_, rfl, rfl, ?_, ?_, ?_⟩
  · have hmth := padStart_toString_two (today.monthIndex + 1) (by omega) (by omega)
    have hday := padStart_toString_two today.day hd1 hd2
    simp only [getTodayString]
    rw [hmth, hday]
  · intro n _
    rw [objKeys_exportedNodeJson, show (cleanNode n).type = n.type from rfl]
    cases n.type with
    | none => decide
    | some t => exact List.Sublist.refl _
  · intro e _
    rfl
  · rfl

theorem exportFlowAsJSON_format_witness :
    (exportFlowAsJSON ⟨2025, 0, 5⟩ [] []).filename
      = "chatbot-flow-2025-01-05.json" := by
  have h := exportFlowAsJSON_format ⟨2025, 0, 5⟩ [] []
    (by decide) (by decide) (by decide)
  rw [h.1, h.2.1]
  rfl

/-- C8 (counterexample): for the date 2026-10-11 the export filename is
"chatbot-flow-2026-10-11.json", which does not begin with "flow-export-",
so the filename does not follow the pattern flow-export-YYYY-MM-DD.ext. -/
theorem exportFilename_claim_cex :
    (exportFlowAsJSON ⟨2026, 9, 11⟩ [] []).filename
        = "chatbot-flow-2026-10-11.json" ∧
    (exportFlowAsJSON ⟨2026, 9, 11⟩ [] []).filename.data.take 12
        ≠ "flow-export-".data := by
  exact ⟨rfl, by decide⟩

/-! ### Visual export (src/utils/exportImage.ts) -/

/-- A value thrown by JS code: either an `Error` carrying a message, or any
other thrown value (the source distinguishes them with `instanceof`). -/
inductive JsThrown where
  | jsError (message : String)
  | other
deriving DecidableEq, Repr

/-- The external collaborators of `exportFlowAsImage`: the result of
`document.querySelector(".react-flow")` and the behaviour of the `toPng`
rasterization capability on this call (a data URL, or a thrown value). -/
structure ImageEnv where
  flowElement : Option Unit
  toPng : Except JsThrown String

/-- `ImageExportResult` from src/utils/exportImage.ts. -/
structure ImageExportResult where
  success : Bool
  error : Option String
deriving DecidableEq, Repr

/-- `exportFlowAsImage` from src/utils/exportImage.ts: the early return when
the canvas element is missing, the catch-all around `toPng` mapping an
`Error` to its message and any other thrown value to the fixed fallback
message, and the success result. -/
def exportFlowAsImage (env : ImageEnv) : ImageExportResult :=
  match env.flowElement with
  | none =>
    { success := false
      error := some "Could not find the flow canvas element." }
  | some _ =>
    match env.toPng with
    | .ok _ => { success := true, error := none }
    | .error err =>
      { success := false
        error := some (match err with
          | .jsError m => m
          | .other => "Unknown error during image export.") }

/-- C6: `exportFlowAsImage` never throws — it is a total function of its
environment returning a result object — and: if the canvas element cannot
be found the result is success false with the fixed message; if the
rasterizer throws an `Error` the result is success false carrying that
error's message (any other thrown value yields the fixed fallback
message); otherwise the result is success true. -/
theorem exportFlowAsImage_total (env : ImageEnv) :
    (env.flowElement = none →
      exportFlowAsImage env
        = { success := false
            error := some "Could not find the flow canvas element." }) ∧
    (∀ m, env.flowElement.isSome → env.toPng = .error (.jsError m) →
      exportFlowAsImage env = { success := false, error := some m }) ∧
    (env.flowElement.isSome → env.toPng = .error .other →
      exportFlowAsImage env
        = { success := false
            error := some "Unknown error during image export." }) ∧
    (∀ u, env.flowElement.isSome → env.toPng = .ok u →
      exportFlowAsImage env = { success := true, error := none }) := by
  obtain ⟨fe, tp⟩ := env
  refine ⟨?_, ?_, ?_, ?_⟩
  · intro h
    subst h
    rfl
  · intro m hfe htp
    cases fe with
    | none => simp at hfe
    | some u => subst htp; rfl
  · intro hfe htp
    cases fe with
    | none => simp at hfe
    | some u => subst htp; rfl
  · intro u hfe htp
    cases fe with
    | none => simp at hfe
    | some v => subst htp; rfl

theorem exportFlowAsImage_total_witness :
    exportFlowAsImage ⟨some (), .error (.jsError "boom")⟩
      = { success := false, error := some "boom" } :=
  (exportFlowAsImage_total ⟨some (), .error (.jsError "boom")⟩).2.1
    "boom" rfl rfl

/-- C8 (amended): the structured export hands its bytes to the save-as-file
capability under a filename deterministically derived from the current
calendar date, following the pattern chatbot-flow-YYYY-MM-DD.json. -/
theorem exportFilename_pattern (today : Date)
    (nodes nodes' : List FlowNode) (edges edges' : List FlowEdge) :
    (exportFlowAsJSON today nodes edges).filename
        = "chatbot-flow-" ++ getTodayString today ++ ".json" ∧
    (exportFlowAsJSON today nodes edges).filename
        = (exportFlowAsJSON today nodes' edges').filename :=
  ⟨rfl, rfl⟩

/-! ### Node id generation (src/components/FlowBuilder.tsx)

`generateNodeId` returns `"node_" ++ toString counter` and bumps the
module-level counter.  To prove that distinct counters yield distinct id
strings we show that the decimal rendering used by `toString` can be
decoded back to the number. -/

def charToDigit (c : Char) : Nat := c.toNat - 48

def decodeDigits (l : List Char) : Nat :=
  l.foldl (fun a c => 10 * a + charToDigit c) 0

theorem charToDigit_digitChar (d : Nat) (h : d < 10) :
    charToDigit (Nat.digitChar d) = d := by
  interval_cases d <;> rfl

theorem toDigitsCore_decode (f : Nat) : ∀ (n : Nat) (ds : List Char) (a : Nat),
    n < f → ∃ k, 0 < k ∧ n < 10 ^ k ∧
      (Nat.toDigitsCore 10 f n ds).foldl (fun x c => 10 * x + charToDigit c) a
        = ds.foldl (fun x c => 10 * x + charToDigit c) (a * 10 ^ k + n) := by
  induction f with
  | zero => intro n ds a h; omega
  | succ f ih =>
    intro n ds a h
    simp only [Nat.toDigitsCore]
    by_cases h0 : n / 10 = 0
    · rw [if_pos h0]
      have hlt : n < 10 := by omega
      refine ⟨1, by omega, by simpa using hlt, ?_⟩
      simp only [List.foldl]
      rw [charToDigit_digitChar (n % 10) (Nat.mod_lt n (by omega)),
        Nat.mod_eq_of_lt hlt]
      have : 10 * a + n = a * 10 ^ 1 + n := by ring
      rw [this]
    · rw [if_neg h0]
      have hn10 : n / 10 < f := by omega
      obtain ⟨k, hk, hbound, heq⟩ := ih (n / 10) (Nat.digitChar (n % 10) :: ds) a hn10
      refine ⟨k + 1, by omega, ?_, ?_⟩
      · have hps : (10 : Nat) ^ (k + 1) = 10 * 10 ^ k := by
          rw [pow_succ]; ring
        rw [hps]
        generalize 10 ^ k = M at hbound ⊢
        omega
      · rw [heq]
        simp only [List.foldl]
        rw [charToDigit_digitChar (n % 10) (Nat.mod_lt n (by omega))]
        have hdm : 10 * (n / 10) + n % 10 = n := Nat.div_add_mod n 10
        have harith : 10 * (a * 10 ^ k + n / 10) + n % 10
            = a * 10 ^ (k + 1) + n := by
          calc 10 * (a * 10 ^ k + n / 10) + n % 10
              = (a * 10 ^ k) * 10 + (10 * (n / 10) + n % 10) := by ring
            _ = a * 10 ^ (k + 1) + n := by rw [hdm, pow_succ]; ring
        rw [harith]

theorem decodeDigits_repr (n : Nat) : decodeDigits (Nat.repr n).data = n := by
  obtain ⟨k, hk, hb, heq⟩ :=
    toDigitsCore_decode (n + 1) n [] 0 (Nat.lt_succ_self n)
  have hshow : decodeDigits (Nat.repr n).data
      = (Nat.toDigitsCore 10 (n + 1) n []).foldl
          (fun x c => 10 * x + charToDigit c) 0 := rfl
  rw [hshow, heq]
  simp

theorem repr_injective : Function.Injective Nat.repr := by
  intro a b h
  have h2 := congrArg (fun s => decodeDigits s.data) h
  simpa [decodeDigits_repr] using h2

/-- `generateNodeId` from src/components/FlowBuilder.tsx, with the
module-level counter value passed explicitly. -/
def generateNodeId (k : Nat) : String := "node_" ++ toString k

theorem generateNodeId_injective : Function.Injective generateNodeId := by
  intro a b h
  have hd := congrArg String.data h
  simp only [generateNodeId] at hd
  have hd2 : ("node_".data ++ (Nat.repr a).data)
      = ("node_".data ++ (Nat.repr b).data) := hd
  have hr : (Nat.repr a).data = (Nat.repr b).data :=
    List.append_cancel_left hd2
  have : Nat.repr a = Nat.repr b := by
    cases ha : Nat.repr a
    cases hb : Nat.repr b
    rw [ha, hb] at hr
    exact congrArg String.mk (by simpa using hr)
  exact repr_injective this

/-- The starter node seeded in FlowBuilder.tsx (`initialNodes`). -/
def initialNodes : List FlowNode :=
  [{ id := "node_0", type := some "textNode", position := ⟨180, 180⟩,
     data := ⟨"Hello! How can I help you today?"⟩ }]

/-- The mutable state of the canvas: the module-level `nodeIdCounter`
together with the React Flow nodes/edges state. -/
structure BuilderState where
  nodeIdCounter : Nat
  nodes : List FlowNode
  edges : List FlowEdge

/-- Process start: `nodeIdCounter = 1`, the seeded starter node, no edges. -/
def initialState : BuilderState :=
  { nodeIdCounter := 1, nodes := initialNodes, edges := [] }

/-- The user-driven graph mutations of FlowBuilder.tsx: `onDrop` (which
assigns `generateNodeId` and bumps the counter; an empty type tag returns
early, mutating nothing), `onConnect` (guarded by `isValidConnection`),
node/edge deletion (React Flow cascade-deletes edges touching a removed
node), `updateNodeText`, and node dragging. -/
inductive Step : BuilderState → BuilderState → Prop where
  | drop (s : BuilderState) (ty : String) (pos : Pos) (hty : ty ≠ "") :
      Step s { nodeIdCounter := s.nodeIdCounter + 1
               nodes := s.nodes ++
                 [{ id := generateNodeId s.nodeIdCounter, type := some ty
                    position := pos, data := ⟨""⟩ }]
               edges := s.edges }
  | connect (s : BuilderState) (e : FlowEdge)
      (hvalid : isValidConnection
        ⟨some e.source, e.sourceHandle, some e.target, e.targetHandle⟩
        s.edges = true) :
      Step s { s with edges := s.edges ++ [e] }
  | removeNodes (s : BuilderState) (removed : List String) :
      Step s { s with
               nodes := s.nodes.filter (fun n => !(removed.contains n.id))
               edges := s.edges.filter (fun e =>
                 !(removed.contains e.source) && !(removed.contains e.target)) }
  | removeEdges (s : BuilderState) (removed : List String) :
      Step s { s with
               edges := s.edges.filter (fun e => !(removed.contains e.id)) }
  | updateText (s : BuilderState) (nodeId text : String) :
      Step s { s with
               nodes := s.nodes.map (fun n =>
                 if n.id == nodeId then { n with data := ⟨text⟩ } else n) }
  | moveNode (s : BuilderState) (nodeId : String) (pos : Pos) :
      Step s { s with
               nodes := s.nodes.map (fun n =>
                 if n.id == nodeId then { n with position := pos } else n) }

/-- States reachable from process start by user actions. -/
def Reachable (s : BuilderState) : Prop :=
  Relation.ReflTransGen Step initialState s

/-- The id invariant: every node id was produced by `generateNodeId` from a
counter value below the current one, and the ids are pairwise distinct. -/
def GoodIds (s : BuilderState) : Prop :=
  (∀ n ∈ s.nodes, ∃ k, n.id = generateNodeId k ∧ k < s.nodeIdCounter) ∧
  (s.nodes.map FlowNode.id).Nodup

theorem goodIds_initial : GoodIds initialState := by
  constructor
  · intro n hn
    simp only [initialState, initialNodes, List.mem_singleton] at hn
    subst hn
    exact ⟨0, rfl, Nat.one_pos⟩
  · simp [initialState, initialNodes]

theorem step_counter_mono {s s' : BuilderState} (h : Step s s') :
    s.nodeIdCounter ≤ s'.nodeIdCounter := by
  cases h with
  | drop ty pos hty => exact Nat.le_succ _
  | connect e hvalid => exact le_refl _
  | removeNodes removed => exact le_refl _
  | removeEdges removed => exact le_refl _
  | updateText nodeId text => exact le_refl _
  | moveNode nodeId pos => exact le_refl _

theorem map_id_of_id_preserving (f : FlowNode → FlowNode)
    (hf : ∀ n, (f n).id = n.id) (l : List FlowNode) :
    (l.map f).map FlowNode.id = l.map FlowNode.id := by
  induction l with
  | nil => rfl
  | cons a l ih => simp [ih, hf]

theorem goodIds_of_id_preserving (s : BuilderState)
    (f : FlowNode → FlowNode) (hf : ∀ n, (f n).id = n.id)
    (h : GoodIds s) : GoodIds { s with nodes := s.nodes.map f } := by
  obtain ⟨hbound, hnodup⟩ := h
  constructor
  · intro n hn
    rcases List.mem_map.mp hn with ⟨m, hm, rfl⟩
    rw [hf m]
    exact hbound m hm
  · show ((s.nodes.map f).map FlowNode.id).Nodup
    rw [map_id_of_id_preserving f hf]
    exact hnodup

theorem step_preserves_goodIds {s s' : BuilderState} (hstep : Step s s')
    (h : GoodIds s) : GoodIds s' := by
  obtain ⟨hbound, hnodup⟩ := h
  cases hstep with
  | drop ty pos hty =>
    constructor
    · intro n hn
      simp only [List.mem_append, List.mem_singleton] at hn
      rcases hn with hn | rfl
      · obtain ⟨k, hk, hlt⟩ := hbound n hn
        refine ⟨k, hk, ?_⟩
        show k < s.nodeIdCounter + 1
        omega
      · refine ⟨s.nodeIdCounter, rfl, ?_⟩
        show s.nodeIdCounter < s.nodeIdCounter + 1
        omega
    · show ((s.nodes ++ [_]).map FlowNode.id).Nodup
      rw [List.map_append]
      refine hnodup.append (by simp) ?_
      intro x hx hx'
      simp only [List.map_cons, List.map_nil, List.mem_singleton] at hx'
      subst hx'
      rcases List.mem_map.mp hx with ⟨n, hn, hid⟩
      obtain ⟨k, hk, hlt⟩ := hbound n hn
      have : k = s.nodeIdCounter :=
        generateNodeId_injective (by rw [← hk, hid])
      omega
  | connect e hvalid => exact ⟨hbound, hnodup⟩
  | removeNodes removed =>
    constructor
    · intro n hn
      exact hbound n (List.mem_of_mem_filter hn)
    · show (((s.nodes.filter _)).map FlowNode.id).Nodup
      exact ((List.filter_sublist _).map FlowNode.id).nodup hnodup
  | removeEdges removed => exact ⟨hbound, hnodup⟩
  | updateText nodeId text =>
    exact goodIds_of_id_preserving s _
      (fun n => by split <;> rfl) ⟨hbound, hnodup⟩
  | moveNode nodeId pos =>
    exact goodIds_of_id_preserving s _
      (fun n => by split <;> rfl) ⟨hbound, hnodup⟩

theorem reachable_goodIds {s : BuilderState} (h : Reachable s) : GoodIds s := by
  induction h with
  | refl => exact goodIds_initial
  | tail hab hstep ih => exact step_preserves_goodIds hstep ih

theorem rtg_counter_mono {s s' : BuilderState}
    (h : Relation.ReflTransGen Step s s') :
    s.nodeIdCounter ≤ s'.nodeIdCounter := by
  induction h with
  | refl => exact le_refl _
  | tail hab hstep ih => exact le_trans ih (step_counter_mono hstep)

theorem fresh_id {s₁ s₂ : BuilderState} (h1 : Reachable s₁)
    (h12 : Relation.ReflTransGen Step s₁ s₂) :
    generateNodeId s₂.nodeIdCounter ∉ s₁.nodes.map FlowNode.id := by
  intro hmem
  rcases List.mem_map.mp hmem with ⟨n, hn, hid⟩
  obtain ⟨k, hk, hlt⟩ := (reachable_goodIds h1).1 n hn
  have : k = s₂.nodeIdCounter :=
    generateNodeId_injective (by rw [← hk, hid])
  have := rtg_counter_mono h12
  omega

/-- C9: node id uniqueness is an invariant of every reachable builder
state: the seeded graph contains only the node "node_0", the counter
starts at 1 and never decreases along any step, in every reachable state
the node ids are pairwise distinct, and the id the drop handler would
assign in any later state is fresh with respect to any earlier reachable
state — so no two nodes ever share an id and an id is never reused after
deletion. -/
theorem nodeId_unique_invariant :
    initialState.nodeIdCounter = 1 ∧
    initialState.nodes.map FlowNode.id = ["node_0"] ∧
    (∀ s s', Step s s' → s.nodeIdCounter ≤ s'.nodeIdCounter) ∧
    (∀ s, Reachable s → (s.nodes.map FlowNode.id).Nodup) ∧
    (∀ s₁ s₂, Reachable s₁ → Relation.ReflTransGen Step s₁ s₂ →
      generateNodeId s₂.nodeIdCounter ∉ s₁.nodes.map FlowNode.id) :=
  ⟨rfl, rfl,
   fun _ _ h => step_counter_mono h,
   fun _ h => (reachable_goodIds h).2,
   fun _ _ h1 h12 => fresh_id h1 h12⟩

theorem nodeId_unique_invariant_witness :
    (initialState.nodes.map FlowNode.id).Nodup ∧
    generateNodeId initialState.nodeIdCounter
      ∉ initialState.nodes.map FlowNode.id :=
  ⟨nodeId_unique_invariant.2.2.2.1 initialState Relation.ReflTransGen.refl,
   nodeId_unique_invariant.2.2.2.2 initialState initialState
     Relation.ReflTransGen.refl Relation.ReflTransGen.refl⟩

end FlowBuilder
